import Mathlib

/-!
# Verification of `MultiProcessDataLoader`
  (allennlp/data/data_loaders/multi_process_data_loader.py)

A shallow embedding of the data loader's pure logic: configuration
validation (`__init__`), the batch builder (`_instances_to_batches`),
length computation (`__len__`), the fixed-length-epoch iteration
(`__iter__` with `batches_per_epoch`), the worker message protocol
(`_instance_worker` / `_batch_worker`) and the consumer fan-in loop
(`_iter_batches` / `_join_workers`).

Modelling conventions:
* `Instance`s are opaque; we use a type parameter `α`.
* Collation (`allennlp_collate`) and device transfer are external
  collaborators treated as opaque, so a "batch" here is the `List α` of
  records handed to the collation function, in order.
* Randomness (`random.shuffle`, `shuffle_iterable`) is not shallowly
  embeddable; the two shuffling operations are passed in as oracle
  functions `List α → List α`, applied exactly where the source applies
  its shuffles.  Claims about unshuffled behaviour quantify over the
  oracles.
* Exceptions are `Except` values; the Python classes `ValueError` /
  `TypeError` realise the spec's `ConfigError` / `NotIndexedError` /
  `LengthUnknownError` taxonomy.
* Everything cross-process is modelled as explicit data: a worker's
  queue emissions are a `List (QueueMsg _)`, and the consumer's view of
  the interleaved queue traffic is likewise a message list.
-/

namespace MPDL

/-- A message on the worker queue.  In the source the payload is the pair
`(item, worker_error)` with sentinel `(None, None)`:
`(x, None)` is a value, `(None, (str(e), traceback.format_exc()))` is an
error (message text and formatted traceback text only, never a live
exception object), and `(None, None)` is the done sentinel. -/
inductive QueueMsg (α : Type) where
  | value (x : α)
  | error (msg tb : String)
  | done
deriving DecidableEq, Repr

/-- Modelled from the spec: `lazy_groups_of` from `allennlp.common.util`
(the repository code for it is not under `src/`); the spec describes it as
"fixed-size contiguous grouping by `batch_size`".  Fuel-indexed so the
recursion is structural; `lazyGroupsOf` instantiates the fuel with the
list length, which always suffices. -/
def groupsFuel (n : Nat) : Nat → List α → List (List α)
  | _, [] => []
  | 0, _ :: _ => []
  | fuel + 1, x :: xs => (x :: xs.take (n - 1)) :: groupsFuel n fuel (xs.drop (n - 1))

/-- Contiguous groups of `n` elements, the last group possibly shorter.
Only used with `n ≥ 1` (a validated `batch_size`, or a window size that
is always positive). -/
def lazyGroupsOf (n : Nat) (xs : List α) : List (List α) :=
  groupsFuel n xs.length xs

/-- The window size computed at the top of `_instances_to_batches` when
`max_instances_in_memory` is set: `max(1, max_instances_in_memory //
max(self.num_workers, 1))`, then rounded up to a multiple of
`batch_size` — but only when the pre-rounding value is `> 1` and
`batch_size` is set and `> 1` (source lines 470–478). -/
def windowSize (mii num_workers : Nat) (batch_size : Option Nat) : Nat :=
  let w := max 1 (mii / max num_workers 1)
  if 1 < w then
    match batch_size with
    | some bs => if 1 < bs then ((w + bs - 1) / bs) * bs else w
    | none => w
  else w

/-- The pre-rounding window size `max(1, max_instances_in_memory //
max(num_workers, 1))`. -/
def preWindow (mii num_workers : Nat) : Nat :=
  max 1 (mii / max num_workers 1)

/-- The loader's configuration fields used by the batching logic
(post-validation, so the numeric fields are naturals).  The presence of a
`batch_sampler` is carried separately, as the sampler function itself. -/
structure Config where
  batch_size : Option Nat
  drop_last : Bool
  shuffle : Bool
  batches_per_epoch : Option Nat
  num_workers : Nat
  max_instances_in_memory : Option Nat
deriving DecidableEq, Repr

/-- The per-window grouping-and-yielding loop of `_instances_to_batches`
(source lines 496–518): with a sampler, index groups select records from
the window; without one, contiguous groups of `batch_size`.  The
`for batch in batches: if no sampler and drop_last and len(batch) <
batch_size: break` loop is a `takeWhile`.  `batch_size` is always set on
the no-sampler branch (validated), so the `getD 1` default never fires
there. -/
def windowToBatches (cfg : Config) (sampler : Option (List α → List (List Nat)))
    (instances : List α) : List (List α) :=
  let batches : List (List α) :=
    match sampler with
    | some s => (s instances).map (fun idxs => idxs.filterMap (fun i => instances[i]?))
    | none => lazyGroupsOf (cfg.batch_size.getD 1) instances
  batches.takeWhile
    (fun b => !(sampler.isNone && cfg.drop_last && decide (b.length < cfg.batch_size.getD 1)))

/-- Embeds `_instances_to_batches` (source lines 466–518).  Indexing each
instance (`_index_instance`) mutates it in place and returns it, so on
the record stream it is the identity.  `oStream` is the oracle for
`shuffle_iterable` (streaming mode) and `oMem` for `random.shuffle`
(single in-memory chunk); each is applied only when `shuffle` is set. -/
def instancesToBatches (cfg : Config) (sampler : Option (List α → List (List Nat)))
    (oStream oMem : List α → List α) (instances : List α) : List (List α) :=
  match cfg.max_instances_in_memory with
  | some mii =>
    let w := windowSize mii cfg.num_workers cfg.batch_size
    let stream := if cfg.shuffle then oStream instances else instances
    ((lazyGroupsOf w stream).map (windowToBatches cfg sampler)).flatten
  | none =>
    let chunk := if cfg.shuffle then oMem instances else instances
    windowToBatches cfg sampler chunk

/-- The window size exactly as claim C5 words it: the rounding to a
multiple of `batch_size` applies whenever `batch_size` is set and greater
than 1, including when the pre-rounding value equals 1.  (Follows the
claim's words, for comparison with `windowSize`.) -/
def windowSizeClaimed (mii num_workers : Nat) (batch_size : Option Nat) : Nat :=
  let w := max 1 (mii / max num_workers 1)
  match batch_size with
  | some bs => if 1 < bs then ((w + bs - 1) / bs) * bs else w
  | none => w

/-! ## Constructor validation (`__init__`, source lines 140–214)

The raw keyword arguments, before validation, so the numeric fields are
integers as in Python.  `device` is the device string (`torch.device`
equality is modelled as string equality, with `"cpu"` the CPU device);
`has_batch_sampler` abstracts `batch_sampler is not None`. -/

structure Params where
  batch_size : Option Int
  drop_last : Bool
  shuffle : Bool
  has_batch_sampler : Bool
  batches_per_epoch : Option Int
  num_workers : Int
  max_instances_in_memory : Option Int
  start_method : String
  pin_memory : Bool
  device : Option String
deriving DecidableEq, Repr

/-- True when the optional integer is set and below 1 (the shape of the
`batch_size` and `batches_per_epoch` range checks). -/
def setBelowOne (o : Option Int) : Bool :=
  o.elim false (fun v => decide (v < 1))

/-- The `max_instances_in_memory` check (source lines 178–182): an
`if batch_size is not None and mii < batch_size / elif mii < 1` chain. -/
def miiCheck (batch_size : Option Int) (mii : Int) : Except String Unit :=
  match batch_size with
  | some bs =>
    if mii < bs then .error "max_instances_in_memory must be at least batch_size"
    else if mii < 1 then .error "max_instances_in_memory must be at least 1"
    else .ok ()
  | none =>
    if mii < 1 then .error "max_instances_in_memory must be at least 1"
    else .ok ()

/-- The two `start_method` checks (source lines 184–185 and 206–214):
memory pinning, or a non-CPU device, with workers requires `"spawn"`.
At line 209 Python tests the truthiness of `num_workers`, i.e.
`num_workers ≠ 0`. -/
def spawnChecks (p : Params) : Except String Unit :=
  if p.pin_memory ∧ 0 < p.num_workers ∧ p.start_method ≠ "spawn" then
    .error "start_method must be set to spawn when using memory pinning"
  else
    match p.device with
    | some d =>
      if d ≠ "cpu" ∧ p.num_workers ≠ 0 ∧ p.start_method ≠ "spawn" then
        .error "start_method must be set to spawn for data loader to put tensors onto a CUDA device"
      else .ok ()
    | none => .ok ()

/-- The checks following the sampler/batch-size block (source lines
175–214): `batches_per_epoch`, `max_instances_in_memory`, then the two
spawn checks. -/
def validateTail (p : Params) : Except String Unit :=
  if setBelowOne p.batches_per_epoch then
    .error "batches_per_epoch must be at least 1"
  else
    match p.max_instances_in_memory with
    | some m =>
      match miiCheck p.batch_size m with
      | .error e => .error e
      | .ok _ => spawnChecks p
    | none => spawnChecks p

/-- The whole of the constructor's parameter validation (source lines
156–214), in source order; `.ok ()` means construction succeeds. -/
def validateParams (p : Params) : Except String Unit :=
  if p.num_workers < 0 then .error "num_workers cannot be a negative number"
  else if setBelowOne p.batch_size then
    .error "batch_size must be at least 1"
  else if p.has_batch_sampler then
    if p.batch_size.isSome then
      .error "batch_sampler option is mutually exclusive with batch_size"
    else if p.drop_last then
      .error "batch_sampler option is mutually exclusive with drop_last"
    else if p.shuffle then
      .error "batch_sampler option is mutually exclusive with shuffle"
    else validateTail p
  else if p.batch_size.isNone then
    .error "batch_size is required when batch_sampler is not supplied"
  else validateTail p

/-- The configurations claim C2 calls valid: its four constraints and
nothing else. -/
def claimValid (p : Params) : Prop :=
  (p.has_batch_sampler = true →
    p.batch_size = none ∧ p.drop_last = false ∧ p.shuffle = false) ∧
  (p.has_batch_sampler = false → p.batch_size ≠ none) ∧
  (∀ n, p.batches_per_epoch = some n → 1 ≤ n) ∧
  (∀ m, p.max_instances_in_memory = some m →
    match p.batch_size with
    | some bs => bs ≤ m
    | none => 1 ≤ m)

/-- The configurations the code actually accepts: claim C2's constraints
plus non-negative `num_workers`, a positive `batch_size` when set, the
`max_instances_in_memory ≥ 1` check even when `batch_size` is set, and
the two `"spawn"` start-method requirements. -/
def fullValid (p : Params) : Prop :=
  0 ≤ p.num_workers ∧
  (∀ bs, p.batch_size = some bs → 1 ≤ bs) ∧
  (p.has_batch_sampler = true →
    p.batch_size = none ∧ p.drop_last = false ∧ p.shuffle = false) ∧
  (p.has_batch_sampler = false → p.batch_size ≠ none) ∧
  (∀ n, p.batches_per_epoch = some n → 1 ≤ n) ∧
  (∀ m, p.max_instances_in_memory = some m →
    1 ≤ m ∧ ∀ bs, p.batch_size = some bs → bs ≤ m) ∧
  ¬(p.pin_memory = true ∧ 0 < p.num_workers ∧ p.start_method ≠ "spawn") ∧
  ¬(∃ d, p.device = some d ∧ d ≠ "cpu" ∧ p.num_workers ≠ 0 ∧ p.start_method ≠ "spawn")

/-! ## Iteration (`__iter__`, `iter_instances`, `_iter_batches`) -/

/-- The `for i in range(batches_per_epoch)` loop of `__iter__` (source
lines 282–287): pull the next batch from the persistent generator; on
`StopIteration` replace the generator by a fresh pass (`passBatches`)
and pull from that.  A second `StopIteration` — possible only when a
fresh pass yields no batch at all — escapes the generator frame, which
under PEP 479 is a `RuntimeError`; that is the `none` result.  Returns
the batches yielded this call and the residual generator. -/
def epochPull (passBatches : List β) : Nat → List β → Option (List β × List β)
  | 0, gen => some ([], gen)
  | n + 1, gen =>
    match gen with
    | b :: rest => (epochPull passBatches n rest).map (fun p => (b :: p.1, p.2))
    | [] =>
      match passBatches with
      | b :: rest => (epochPull passBatches n rest).map (fun p => (b :: p.1, p.2))
      | [] => none

/-- The loader's mutable state.  `source` is the deterministic record
source: the sequence one full `reader.read(data_path)` pass produces.
`instances` is the `_instances` cache, `gen` the residual batches of the
persistent `_batch_generator`, and `vocab` whether `index_with` has
attached the indexing context (`_vocab is not None`). -/
structure LoaderState (α : Type) where
  cfg : Config
  source : List α
  instances : Option (List α)
  gen : Option (List (List α))
  vocab : Bool
deriving DecidableEq, Repr

/-- Embeds `iter_instances` (source lines 289–326) as the record list it yields
together with the state it leaves: a non-empty `_instances` cache is
yielded as-is (`if self._instances:`); otherwise the source is read
(in-process or fanned in from workers — with a deterministic source both
produce the source sequence) and, when `max_instances_in_memory` is
unset, cached as it is yielded. -/
def iterInstances (st : LoaderState α) : List α × LoaderState α :=
  match st.instances with
  | some is =>
    if is.isEmpty then
      match st.cfg.max_instances_in_memory with
      | none => (st.source, { st with instances := some st.source })
      | some _ => (st.source, st)
    else (is, st)
  | none =>
    match st.cfg.max_instances_in_memory with
    | none => (st.source, { st with instances := some st.source })
    | some _ => (st.source, st)

/-- The fan-in loop of `_iter_batches` (source lines 345–355) over the
interleaved queue traffic: `while done_count < num_workers`, consume
messages; a value is yielded and acknowledged, the done sentinel bumps
`done_count`, an error message makes the consumer raise
`WorkerError(msg)` at once.  `none` models the real code blocking on
`queue.get` because the supplied trace has fewer messages than the
protocol promises. -/
def fanIn (num_workers : Nat) : Nat → List (QueueMsg β) → Option (List β × Option String)
  | done_count, msgs =>
    if num_workers ≤ done_count then some ([], none)
    else
      match msgs with
      | [] => none
      | .done :: rest => fanIn num_workers (done_count + 1) rest
      | .value b :: rest => (fanIn num_workers done_count rest).map (fun p => (b :: p.1, p.2))
      | .error m _ :: _ => some ([], some m)

/-- How one call to the iteration entry point can fail. -/
inductive IterError where
  /-- The `ValueError` at the top of `__iter__`: not indexed with a
  vocabulary yet. -/
  | notIndexed
  /-- A `WorkerError(msg)` raised in the fan-in loop. -/
  | workerFailure (msg : String)
  /-- The PEP 479 `RuntimeError` when a fresh pass yields no batch while
  `batches_per_epoch` still demands one. -/
  | generatorStop
  /-- Model artifact: the supplied worker-message trace ends before one
  done sentinel per worker, where the real code would block. -/
  | insufficientTrace
deriving DecidableEq, Repr

/-- Embeds `_iter_batches` (source lines 328–359) as one full pass: in-process
batch building when the cache exists or `num_workers == 0`, otherwise
the batch-worker fan-in over the message trace `msgs`. -/
def iterBatchesPass (sampler : Option (List α → List (List Nat)))
    (oStream oMem : List α → List α) (msgs : List (QueueMsg (List α)))
    (st : LoaderState α) : Except IterError (List (List α) × LoaderState α) :=
  if st.instances.isSome || st.cfg.num_workers = 0 then
    let p := iterInstances st
    .ok (instancesToBatches st.cfg sampler oStream oMem p.1, p.2)
  else
    match fanIn st.cfg.num_workers 0 msgs with
    | none => .error .insufficientTrace
    | some (_, some m) => .error (.workerFailure m)
    | some (ys, none) => .ok (ys, st)

/-- The batches of one in-process pass over the current state (what a
fresh `_iter_batches()` generator yields when `num_workers == 0`). -/
def inProcessPass (sampler : Option (List α → List (List Nat)))
    (oStream oMem : List α → List α) (st : LoaderState α) : List (List α) :=
  instancesToBatches st.cfg sampler oStream oMem (iterInstances st).1

/-- One call to `__iter__` (source lines 270–287), fully consumed.
First the vocabulary check; then, with `batches_per_epoch` unset, one
delegated pass; with it set, `batches_per_epoch` pulls from the
persistent generator (`st.gen`, freshly created when absent), restarting
it on exhaustion via `epochPull`.  The fresh pass used for the restart
is the pass over the current (deterministic) state. -/
def loaderIterate (sampler : Option (List α → List (List Nat)))
    (oStream oMem : List α → List α) (msgs : List (QueueMsg (List α)))
    (st : LoaderState α) : Except IterError (List (List α) × LoaderState α) :=
  if st.vocab = false then .error .notIndexed
  else
    match st.cfg.batches_per_epoch with
    | none => iterBatchesPass sampler oStream oMem msgs st
    | some n =>
      match iterBatchesPass sampler oStream oMem msgs st with
      | .error e => .error e
      | .ok (pass, st₁) =>
        match epochPull pass n (st.gen.getD pass) with
        | none => .error .generatorStop
        | some (ys, gen') => .ok (ys, { st₁ with gen := some gen' })

/-! ## Length (`__len__`, source lines 247–268) -/

/-- Embeds `__len__`: `batches_per_epoch` when set; else, in full in-memory mode
(`max_instances_in_memory` unset), the sampler's `get_num_batches` result
(`samplerCount`, present exactly when a `batch_sampler` is configured) or
the `drop_last`-dependent division of the cached instance count; else the
`TypeError` realising the spec's `LengthUnknownError` (`.error ()`). -/
def loaderLength (cfg : Config) (samplerCount : Option Nat) (numInstances : Nat) :
    Except Unit Nat :=
  match cfg.batches_per_epoch with
  | some n => .ok n
  | none =>
    match cfg.max_instances_in_memory with
    | none =>
      match samplerCount with
      | some c => .ok c
      | none =>
        let bs := cfg.batch_size.getD 1
        if cfg.drop_last || numInstances % bs == 0 then .ok (numInstances / bs)
        else .ok (1 + numInstances / bs)
    | some _ => .error ()

/-- The length operation exactly as claim C4 words it (follows the
claim's words, for comparison with `loaderLength`): `batches_per_epoch`
when set; else in full in-memory mode the sampler's count, else
`⌊n / bs⌋` when `drop_last` is true or `bs` divides `n` and
`1 + ⌊n / bs⌋` otherwise; else the length-unknown failure. -/
def claimedLength (cfg : Config) (samplerCount : Option Nat) (numInstances : Nat) :
    Except Unit Nat :=
  match cfg.batches_per_epoch with
  | some n => .ok n
  | none =>
    match cfg.max_instances_in_memory with
    | none =>
      match samplerCount with
      | some c => .ok c
      | none =>
        let bs := cfg.batch_size.getD 1
        if cfg.drop_last then .ok (numInstances / bs)
        else if bs ∣ numInstances then .ok (numInstances / bs)
        else .ok (1 + numInstances / bs)
    | some _ => .error ()

/-! ## Workers (`_instance_worker`, `_batch_worker`, `_join_workers`) -/

/-- The value messages for a list of payloads. -/
def valuesOf (xs : List β) : List (QueueMsg β) :=
  xs.map QueueMsg.value

/-- The (at most one) error message emitted by a worker's `except`
clause: `queue.put((None, (str(e), traceback.format_exc())))`. -/
def errPart : Option (String × String) → List (QueueMsg β)
  | some (m, t) => [QueueMsg.error m t]
  | none => []

/-- The message text of the `ValueError` raised by `_instance_worker`
when the first instance already carries token indexers (source lines
409–417); a fixed string in the source, abridged here. -/
def tokenIndexersMsg : String :=
  "Found a TextField with token_indexers already applied, but you're using num_workers > 0"

/-- Stand-in for `traceback.format_exc()` of that `ValueError`. -/
def tokenIndexersTb : String :=
  "Traceback (most recent call last): ValueError"

/-- The main loop of `_instance_worker`'s `try` block (source lines
402–419): each record is emitted as a value, except that the very first
record is first checked for pre-applied token indexers (`bad`); a failed
check raises before anything is emitted.  Returns the emitted records
and whether the check raised. -/
def instanceWorkerEmitted (bad : α → Bool) : Bool → List α → List α × Bool
  | _, [] => ([], false)
  | checked, r :: rest =>
    if !checked && bad r then ([], true)
    else
      let p := instanceWorkerEmitted bad true rest
      (r :: p.1, p.2)

/-- Everything `_instance_worker` (source lines 397–427) puts on the
queue, for a source that yields `recs` and then raises iff `readErr` is
set (the pair is the exception's message text and formatted traceback —
a live exception object cannot cross):  the values from the loop, then
the error message if the loop raised (the token-indexers check
pre-empting the source's own failure), then exactly one done sentinel.
The final `queue.join()` emits nothing. -/
def instanceWorkerMsgs (bad : α → Bool) (recs : List α)
    (readErr : Option (String × String)) : List (QueueMsg α) :=
  let p := instanceWorkerEmitted bad false recs
  valuesOf p.1 ++
    errPart (if p.2 then some (tokenIndexersMsg, tokenIndexersTb) else readErr) ++
    [QueueMsg.done]

/-- The batches `_batch_worker`'s `try` block emits.  Without a failure,
the full builder output.  When the lazy source raises after `recs`, the
builder has completed only the windows fully read before the failure: in
streaming mode the `⌊n/w⌋` complete windows of the stream, and in full
in-memory mode nothing, because `list(instance_iterator)` raises before
the single chunk exists. -/
def batchWorkerValues (cfg : Config) (sampler : Option (List α → List (List Nat)))
    (oStream oMem : List α → List α) (recs : List α) (failed : Bool) :
    List (List α) :=
  if failed then
    match cfg.max_instances_in_memory with
    | none => []
    | some mii =>
      let w := windowSize mii cfg.num_workers cfg.batch_size
      let stream := if cfg.shuffle then oStream recs else recs
      (((lazyGroupsOf w stream).take (stream.length / w)).map
        (windowToBatches cfg sampler)).flatten
  else instancesToBatches cfg sampler oStream oMem recs

/-- Everything `_batch_worker` (source lines 429–442) puts on the queue:
built batches as values, then the error message if the shard raised,
then exactly one done sentinel. -/
def batchWorkerMsgs (cfg : Config) (sampler : Option (List α → List (List Nat)))
    (oStream oMem : List α → List α) (recs : List α)
    (readErr : Option (String × String)) : List (QueueMsg (List α)) :=
  valuesOf (batchWorkerValues cfg sampler oStream oMem recs readErr.isSome) ++
    errPart readErr ++ [QueueMsg.done]

/-- The `Value* Error? Done` protocol: some values, then at most one
error, then exactly one done sentinel and nothing after it. -/
def protocolOk (msgs : List (QueueMsg β)) : Prop :=
  ∃ vs err, msgs = valuesOf vs ++ err ++ [QueueMsg.done] ∧
    (err = [] ∨ ∃ m t, err = [QueueMsg.error m t])

/-- The acknowledgment loop of `_join_workers` (source lines 385–390):
`for _ in range(len(workers))`, each iteration calling
`queue.task_done()` inside `try/except ValueError: break`.
`JoinableQueue.task_done()` raises `ValueError` exactly when every
enqueued message has already been acknowledged — when the queue's
unfinished count is exhausted — and the `break` then ends the loop
early.  Arguments: loop iterations (`len(workers)`) and the queue's
unfinished count at teardown; result: acknowledgments issued. -/
def ackLoop : Nat → Nat → Nat
  | 0, _ => 0
  | _ + 1, 0 => 0
  | iters + 1, unfinished + 1 => 1 + ackLoop iters unfinished

/-- Embeds `_join_workers` (source lines 381–395): `queue.task_done()` up
to once per spawned worker, breaking early on `ValueError` when the
queue's unfinished count runs out (releasing each worker's
`queue.join()`), then `terminate()` every worker still alive — after
which no worker is alive.  Input: each spawned worker's liveness at
teardown and the queue's unfinished count (messages put but not yet
acknowledged — at least the unacknowledged error message itself in the
error path, but possibly fewer than the number of workers when some
workers have not yet enqueued anything); output: the number of
acknowledgments issued and the liveness after teardown. -/
def joinWorkers (alive : List Bool) (unfinished : Nat) : Nat × List Bool :=
  (ackLoop alive.length unfinished, alive.map (fun _ => false))

/-- Outcome of one multi-worker `_iter_batches` call, teardown included. -/
structure MultiIterResult (β : Type) where
  /-- Batches yielded to the caller, in consumption order. -/
  yielded : List β
  /-- Holds `some msg` iff the call raised `WorkerError(msg)`. -/
  raisedWorkerError : Option String
  /-- Number of `task_done` calls issued by `_join_workers`. -/
  teardownAcks : Nat
  /-- Each spawned worker's liveness after the call returns. -/
  workersAliveAfter : List Bool
deriving DecidableEq, Repr

/-- The multi-worker branch of `_iter_batches` (source lines 332–359)
with its `finally` block: fan in the queue traffic, and in every case —
normal completion or a raised `WorkerError` — run `_join_workers` before
returning/propagating.  `aliveAtTeardown` is each spawned worker's
liveness when teardown starts, and `unfinished` the queue's unfinished
count at that moment (puts by the workers minus the per-value
acknowledgments the fan-in loop issued; not determined by the consumed
trace alone, since workers may still have messages in flight). -/
def iterBatchesMulti (num_workers : Nat) (msgs : List (QueueMsg β))
    (aliveAtTeardown : List Bool) (unfinished : Nat) : Option (MultiIterResult β) :=
  (fanIn num_workers 0 msgs).map (fun p =>
    let td := joinWorkers aliveAtTeardown unfinished
    ⟨p.1, p.2, td.1, td.2⟩)

/-- Done sentinels in a message list (the consumer's `done_count` tracks
these). -/
def doneCount (msgs : List (QueueMsg β)) : Nat :=
  msgs.countP (fun msg => match msg with | .done => true | _ => false)

/-- Error messages in a message list. -/
def errorCount (msgs : List (QueueMsg β)) : Nat :=
  msgs.countP (fun msg => match msg with | .error _ _ => true | _ => false)

/-- The value payloads of a message list, in order. -/
def valuePayloads (msgs : List (QueueMsg β)) : List β :=
  msgs.filterMap (fun msg => match msg with | .value b => some b | _ => none)

/-! ## Theorems -/

/-- C3: in batch-size mode (no sampler), for the 11-record source
`[0,…,10]` with `batch_size = 4`: with `drop_last = true` exactly the two
full batches `[0,1,2,3]` and `[4,5,6,7]` are yielded, in source order,
and the trailing records `8, 9, 10` appear in no batch; with
`drop_last = false` the same two batches are followed by the batch
`[8,9,10]`. -/
theorem eleven_records_batch_size_four :
    instancesToBatches ⟨some 4, true, false, none, 0, none⟩ none id id
      [0, 1, 2, 3, 4, 5, 6, 7, 8, 9, 10] = [[0, 1, 2, 3], [4, 5, 6, 7]] ∧
    instancesToBatches ⟨some 4, false, false, none, 0, none⟩ none id id
      [0, 1, 2, 3, 4, 5, 6, 7, 8, 9, 10] =
      [[0, 1, 2, 3], [4, 5, 6, 7], [8, 9, 10]] := by
  decide

/-- C5 counterexample: with `max_instances_in_memory = 4`,
`num_workers = 4` and `batch_size = 4` the pre-rounding window size is
`max(1, 4 // 4) = 1`, so the code's `max_instances_in_memory > 1` guard
skips the rounding and the window size stays 1, while the claim (rounding
"also applies when the pre-rounding W equals 1") demands 4. -/
theorem window_rounding_counterexample :
    windowSize 4 4 (some 4) = 1 ∧ windowSizeClaimed 4 4 (some 4) = 4 ∧
    windowSize 4 4 (some 4) ≠ windowSizeClaimed 4 4 (some 4) := by
  decide

/-- C5 (amended): the chunking window equals the pre-rounding size
`W = max(1, max_instances_in_memory // max(num_workers, 1))` whenever
`batch_size` is unset, or `≤ 1`, or `W = 1`; and only when both
`batch_size > 1` and `W > 1` is it rounded up to the nearest multiple of
`batch_size` (a multiple of `batch_size`, at least `W`, and less than
`W + batch_size`). -/
theorem window_rounding (mii nw bs : Nat) :
    windowSize mii nw none = preWindow mii nw ∧
    (bs ≤ 1 → windowSize mii nw (some bs) = preWindow mii nw) ∧
    (preWindow mii nw ≤ 1 → windowSize mii nw (some bs) = preWindow mii nw) ∧
    (1 < bs → 1 < preWindow mii nw →
      bs ∣ windowSize mii nw (some bs) ∧
      preWindow mii nw ≤ windowSize mii nw (some bs) ∧
      windowSize mii nw (some bs) < preWindow mii nw + bs) := by
  refine ⟨?_, ?_, ?_, ?_⟩
  · simp [windowSize, preWindow]
  · intro hb
    simp only [windowSize, preWindow]
    split_ifs <;> first | rfl | omega
  · intro hw
    simp only [windowSize, preWindow] at hw ⊢
    split_ifs <;> first | rfl | omega
  · intro hb hw
    have hws : windowSize mii nw (some bs) =
        ((preWindow mii nw + bs - 1) / bs) * bs := by
      simp only [windowSize, preWindow] at hw ⊢
      rw [if_pos hw, if_pos hb]
    have hq := Nat.div_add_mod (preWindow mii nw + bs - 1) bs
    have hr : (preWindow mii nw + bs - 1) % bs < bs := Nat.mod_lt _ (by omega)
    refine ⟨hws ▸ dvd_mul_left bs _, ?_, ?_⟩ <;>
      · rw [hws, Nat.mul_comm]
        generalize hgen : bs * ((preWindow mii nw + bs - 1) / bs) = m at hq ⊢
        omega

/-- C5 witness: at `max_instances_in_memory = 10`, `num_workers = 2`,
`batch_size = 4`, the pre-rounding window is 5 and the window size is
a multiple of 4 in `[5, 9)`, i.e. 8. -/
theorem window_rounding_witness :
    1 < 4 ∧ 1 < preWindow 10 2 ∧
    (4 ∣ windowSize 10 2 (some 4) ∧ preWindow 10 2 ≤ windowSize 10 2 (some 4) ∧
      windowSize 10 2 (some 4) < preWindow 10 2 + 4) :=
  ⟨by decide, by decide, (window_rounding 10 2 4).2.2.2 (by decide) (by decide)⟩

/-- C4: the length operation returns `batches_per_epoch` when set;
otherwise in full in-memory mode the sampler's own count when a sampler
is configured, else `⌊n / batch_size⌋` when `drop_last` is true or
`batch_size` divides `n` and `1 + ⌊n / batch_size⌋` otherwise; otherwise
it fails with the length-unknown error — i.e. `__len__` coincides with
the claim's description on every configuration. -/
theorem length_matches_claim (cfg : Config) (samplerCount : Option Nat) (n : Nat) :
    loaderLength cfg samplerCount n = claimedLength cfg samplerCount n := by
  rcases cfg with ⟨bs, dl, sh, bpe, nw, mii⟩
  cases bpe with
  | some k => rfl
  | none =>
    cases mii with
    | some m => rfl
    | none =>
      cases samplerCount with
      | some c => rfl
      | none =>
        cases dl with
        | true => rfl
        | false =>
          simp only [loaderLength, claimedLength, Bool.false_or, if_false]
          by_cases h : bs.getD 1 ∣ n
          · have hc : (n % bs.getD 1 == 0) = true :=
              beq_iff_eq.mpr (Nat.dvd_iff_mod_eq_zero.mp h)
            rw [if_pos hc, if_pos h]
            simp
          · have hc : ¬(n % bs.getD 1 == 0) = true := fun hc =>
              h (Nat.dvd_iff_mod_eq_zero.mpr (beq_iff_eq.mp hc))
            rw [if_neg hc, if_neg h]
            simp

theorem miiCheck_ok_iff (bs : Option Int) (m : Int) :
    miiCheck bs m = .ok () ↔ (1 ≤ m ∧ ∀ b, bs = some b → b ≤ m) := by
  cases bs with
  | none =>
    simp only [miiCheck]
    split_ifs with h
    · simp only [reduceCtorEq, false_iff]
      intro hc
      omega
    · simp only [true_iff]
      exact ⟨by omega, by intro b hb; cases hb⟩
  | some b =>
    simp only [miiCheck]
    split_ifs with h1 h2
    · simp only [reduceCtorEq, false_iff]
      intro hc
      have := hc.2 b rfl
      omega
    · simp only [reduceCtorEq, false_iff]
      intro hc
      omega
    · simp only [true_iff]
      refine ⟨by omega, ?_⟩
      intro b' hb'
      cases hb'
      omega

theorem spawnChecks_ok_iff (p : Params) :
    spawnChecks p = .ok () ↔
      (¬(p.pin_memory = true ∧ 0 < p.num_workers ∧ p.start_method ≠ "spawn") ∧
       ¬(∃ d, p.device = some d ∧ d ≠ "cpu" ∧ p.num_workers ≠ 0 ∧
          p.start_method ≠ "spawn")) := by
  cases hdev : p.device with
  | none =>
    simp only [spawnChecks, hdev]
    split_ifs with hpin
    · simp only [reduceCtorEq, false_iff]
      intro hc
      exact hc.1 hpin
    · simp only [true_iff]
      refine ⟨hpin, ?_⟩
      rintro ⟨d, hd, -⟩
      cases hd
  | some d =>
    simp only [spawnChecks, hdev]
    split_ifs with hpin hcuda
    · simp only [reduceCtorEq, false_iff]
      intro hc
      exact hc.1 hpin
    · simp only [reduceCtorEq, false_iff]
      intro hc
      exact hc.2 ⟨d, rfl, hcuda⟩
    · simp only [true_iff]
      refine ⟨hpin, ?_⟩
      rintro ⟨d', hd', hc⟩
      cases hd'
      exact hcuda hc

theorem validateTail_ok_iff (p : Params) :
    validateTail p = .ok () ↔
      ((∀ n, p.batches_per_epoch = some n → 1 ≤ n) ∧
       (∀ m, p.max_instances_in_memory = some m →
         1 ≤ m ∧ ∀ bs, p.batch_size = some bs → bs ≤ m) ∧
       ¬(p.pin_memory = true ∧ 0 < p.num_workers ∧ p.start_method ≠ "spawn") ∧
       ¬(∃ d, p.device = some d ∧ d ≠ "cpu" ∧ p.num_workers ≠ 0 ∧
          p.start_method ≠ "spawn")) := by
  unfold validateTail
  split_ifs with hbpe
  · simp only [reduceCtorEq, false_iff]
    intro hc
    cases hb : p.batches_per_epoch with
    | none =>
      rw [hb] at hbpe
      simp [setBelowOne] at hbpe
    | some n =>
      have h1 := hc.1 n hb
      rw [hb] at hbpe
      simp only [setBelowOne, Option.elim_some, decide_eq_true_eq] at hbpe
      omega
  · have hbpeOk : ∀ n, p.batches_per_epoch = some n → 1 ≤ n := by
      intro n hn
      rw [hn] at hbpe
      simp only [setBelowOne, Option.elim_some, decide_eq_true_eq] at hbpe
      omega
    split
    next m heq =>
      split
      next e heq2 =>
        simp only [reduceCtorEq, false_iff]
        intro hc
        have hok := (miiCheck_ok_iff p.batch_size m).mpr (hc.2.1 m heq)
        rw [heq2] at hok
        cases hok
      next u heq2 =>
        cases u
        rw [spawnChecks_ok_iff]
        constructor
        · rintro ⟨h1, h2⟩
          refine ⟨hbpeOk, ?_, h1, h2⟩
          intro m' hm'
          rw [heq] at hm'
          cases hm'
          exact (miiCheck_ok_iff p.batch_size m).mp heq2
        · intro hc
          exact ⟨hc.2.2.1, hc.2.2.2⟩
    next heq =>
      rw [spawnChecks_ok_iff]
      constructor
      · rintro ⟨h1, h2⟩
        refine ⟨hbpeOk, ?_, h1, h2⟩
        intro m hm
        rw [heq] at hm
        cases hm
      · intro hc
        exact ⟨hc.2.2.1, hc.2.2.2⟩

/-- C2 (amended): construction succeeds exactly when the claim's four
constraints hold *and additionally* `num_workers` is non-negative,
`batch_size` when set is at least 1, the `max_instances_in_memory ≥ 1`
bound also holds alongside a set `batch_size`, memory pinning with
workers uses the `"spawn"` start method, and a non-CPU device with
workers uses the `"spawn"` start method. -/
theorem validateParams_ok_iff (p : Params) :
    validateParams p = .ok () ↔ fullValid p := by
  unfold validateParams fullValid
  split_ifs with hnw hbs hsamp hbsSome hdl hsh hbsNone
  · simp only [reduceCtorEq, false_iff]
    intro hc
    omega
  · simp only [reduceCtorEq, false_iff]
    intro hc
    cases hb : p.batch_size with
    | none =>
      rw [hb] at hbs
      simp [setBelowOne] at hbs
    | some b =>
      have h1 := hc.2.1 b hb
      rw [hb] at hbs
      simp only [setBelowOne, Option.elim_some, decide_eq_true_eq] at hbs
      omega
  · simp only [reduceCtorEq, false_iff]
    intro hc
    rw [(hc.2.2.1 hsamp).1, Option.isSome_none] at hbsSome
    cases hbsSome
  · simp only [reduceCtorEq, false_iff]
    intro hc
    rw [(hc.2.2.1 hsamp).2.1] at hdl
    cases hdl
  · simp only [reduceCtorEq, false_iff]
    intro hc
    rw [(hc.2.2.1 hsamp).2.2] at hsh
    cases hsh
  · rw [validateTail_ok_iff]
    constructor
    · intro hc
      have hbsN : p.batch_size = none := by
        cases hb : p.batch_size with
        | none => rfl
        | some b =>
          rw [hb, Option.isSome_some] at hbsSome
          cases hbsSome rfl
      refine ⟨by omega, ?_, ?_, ?_, hc.1, hc.2.1, hc.2.2.1, hc.2.2.2⟩
      · intro b hb
        rw [hbsN] at hb
        cases hb
      · intro _
        refine ⟨hbsN, ?_, ?_⟩
        · simpa using hdl
        · simpa using hsh
      · intro hns
        rw [hsamp] at hns
        cases hns
    · intro hc
      exact ⟨hc.2.2.2.2.1, hc.2.2.2.2.2.1, hc.2.2.2.2.2.2.1, hc.2.2.2.2.2.2.2⟩
  · simp only [reduceCtorEq, false_iff]
    intro hc
    have hne := hc.2.2.2.1 (by simpa using hsamp)
    rw [Option.isNone_iff_eq_none] at hbsNone
    exact hne hbsNone
  · rw [validateTail_ok_iff]
    constructor
    · intro hc
      refine ⟨by omega, ?_, ?_, ?_, hc.1, hc.2.1, hc.2.2.1, hc.2.2.2⟩
      · intro b hb
        rw [hb] at hbs
        simp only [setBelowOne, Option.elim_some, decide_eq_true_eq] at hbs
        omega
      · intro hs
        exact absurd hs hsamp
      · intro _ heq
        rw [heq] at hbsNone
        exact hbsNone rfl
    · intro hc
      exact ⟨hc.2.2.2.2.1, hc.2.2.2.2.2.1, hc.2.2.2.2.2.2.1, hc.2.2.2.2.2.2.2⟩

/-- The configuration witnessing that claim C2's list of failure
conditions is incomplete: memory pinning with one worker and the
default `"fork"` start method. -/
def pinForkParams : Params :=
  ⟨some 1, false, false, false, none, 1, none, "fork", true, none⟩

/-- C2 counterexample: `pinForkParams` satisfies every constraint the
claim lists (no sampler conflicts, `batch_size` set, no
`batches_per_epoch`, no `max_instances_in_memory`), yet construction
raises — `pin_memory=True` with `num_workers=1` demands
`start_method="spawn"` — so "succeeds for every configuration satisfying
all these constraints" is false. -/
theorem validateParams_claim_counterexample :
    claimValid pinForkParams ∧ validateParams pinForkParams ≠ .ok () := by
  constructor
  · refine ⟨?_, ?_, ?_, ?_⟩
    · intro h
      cases h
    · intro _
      simp [pinForkParams]
    · intro n hn
      cases hn
    · intro m hm
      cases hm
  · intro h
    have hval : validateParams pinForkParams =
        Except.error "start_method must be set to spawn when using memory pinning" := rfl
    rw [hval] at h
    cases h

theorem epochPull_total (pass : List β) (hp : pass ≠ []) :
    ∀ (n : Nat) (g : List β), ∃ ys g', epochPull pass n g = some (ys, g') ∧
      ys.length = n := by
  intro n
  induction n with
  | zero => exact fun g => ⟨[], g, rfl, rfl⟩
  | succ n ih =>
    intro g
    cases g with
    | cons b rest =>
      obtain ⟨ys, g', h, hl⟩ := ih rest
      exact ⟨b :: ys, g', by simp [epochPull, h], by simp [hl]⟩
    | nil =>
      cases hpass : pass with
      | nil => exact absurd hpass hp
      | cons b rest =>
        subst hpass
        obtain ⟨ys, g', h, hl⟩ := ih rest
        exact ⟨b :: ys, g', by simp [epochPull, h], by simp [hl]⟩

/-- C1 (amended): with the indexing context attached, `num_workers = 0`
and `batches_per_epoch = n`, every call to the iteration entry point
yields exactly `n` batches — pulling from the persistent generator in
any residual state `st.gen` and transparently restarting a fresh pass on
exhaustion — *provided a full pass over the source produces at least one
batch*.  (When a pass produces no batch, the call raises instead; see
the counterexample.) -/
theorem fixed_length_epochs (α : Type) (sampler : Option (List α → List (List Nat)))
    (oS oM : List α → List α) (msgs : List (QueueMsg (List α)))
    (st : LoaderState α) (n : Nat)
    (hv : st.vocab = true) (hnw : st.cfg.num_workers = 0)
    (hbpe : st.cfg.batches_per_epoch = some n)
    (hpass : inProcessPass sampler oS oM st ≠ []) :
    ∃ ys st', loaderIterate sampler oS oM msgs st = .ok (ys, st') ∧
      ys.length = n := by
  obtain ⟨ys, g', h, hl⟩ :=
    epochPull_total _ hpass n (st.gen.getD (inProcessPass sampler oS oM st))
  refine ⟨ys, { (iterInstances st).2 with gen := some g' }, ?_, hl⟩
  unfold loaderIterate iterBatchesPass
  rw [hv, hbpe, hnw]
  unfold inProcessPass at h
  simp [h]

/-- A loader in a state where one full pass produces two batches
(`[10]` and `[20]`), with `batches_per_epoch = 5`. -/
def epochLoader : LoaderState Nat :=
  ⟨⟨some 1, false, false, some 5, 0, none⟩, [10, 20], some [10, 20], none, true⟩

/-- C1 witness: on `epochLoader` — 2 batches per full pass,
`batches_per_epoch = 5` — one call yields exactly 5 batches. -/
theorem fixed_length_epochs_witness :
    ∃ ys st', loaderIterate none id id [] epochLoader = .ok (ys, st') ∧
      ys.length = 5 :=
  fixed_length_epochs Nat none id id [] epochLoader 5 rfl rfl rfl (by decide)

/-- An indexed loader over an *empty* source with `batches_per_epoch = 1`:
a full pass produces zero batches. -/
def emptyPassLoader : LoaderState Nat :=
  ⟨⟨some 1, false, false, some 1, 0, none⟩, [], none, none, true⟩

/-- C1 counterexample: on a source whose full pass produces zero batches,
a call with `batches_per_epoch = 1` does not yield 1 batch — the restart
finds the fresh pass empty too, and the `StopIteration` escaping the
generator frame is a `RuntimeError` (PEP 479) — refuting "the per-call
batch count is n regardless of how many batches one full pass over the
source produces". -/
theorem fixed_length_epochs_counterexample :
    loaderIterate none id id [] emptyPassLoader = .error .generatorStop ∧
    ¬∃ ys st', loaderIterate none id id [] emptyPassLoader = .ok (ys, st') ∧
      ys.length = 1 := by
  constructor
  · rfl
  · rintro ⟨ys, st', h, -⟩
    rw [show loaderIterate none id id [] emptyPassLoader =
        .error .generatorStop from rfl] at h
    cases h

theorem iterBatchesPass_ne_notIndexed (sampler : Option (List α → List (List Nat)))
    (oS oM : List α → List α) (msgs : List (QueueMsg (List α))) (st : LoaderState α) :
    iterBatchesPass sampler oS oM msgs st ≠ .error .notIndexed := by
  unfold iterBatchesPass
  split_ifs with h
  · simp
  · rcases hf : fanIn st.cfg.num_workers 0 msgs with - | ⟨ys, e⟩
    · simp
    · rcases e with - | m <;> simp

/-- C8: for every loader state, the batch-iteration entry point fails
with the not-indexed error exactly when no indexing context is attached:
it fails with it (before any batch is produced) when `vocab` is absent,
and whatever else may happen when `vocab` is attached, the result is
never the not-indexed failure. -/
theorem not_indexed_check (α : Type) (sampler : Option (List α → List (List Nat)))
    (oS oM : List α → List α) (msgs : List (QueueMsg (List α))) (st : LoaderState α) :
    (st.vocab = false → loaderIterate sampler oS oM msgs st = .error .notIndexed) ∧
    (st.vocab = true → loaderIterate sampler oS oM msgs st ≠ .error .notIndexed) := by
  constructor
  · intro h
    simp [loaderIterate, h]
  · intro h
    unfold loaderIterate
    rw [h]
    simp only [Bool.true_eq_false, if_false]
    cases hbpe : st.cfg.batches_per_epoch with
    | none => exact iterBatchesPass_ne_notIndexed sampler oS oM msgs st
    | some n =>
      have hne := iterBatchesPass_ne_notIndexed sampler oS oM msgs st
      rcases hp : iterBatchesPass sampler oS oM msgs st with e | ⟨pass, st₁⟩
      · rw [hp] at hne
        simp only []
        intro hc
        cases hc
        exact hne rfl
      · rcases hpull : epochPull pass n (st.gen.getD pass) with - | ⟨ys', g''⟩ <;>
          simp [hpull]

/-- A loader with the indexing context attached (cached two-record
source, plain `batch_size = 1`). -/
def indexedLoader : LoaderState Nat :=
  ⟨⟨some 1, false, false, none, 0, none⟩, [10, 20], some [10, 20], none, true⟩

/-- The same loader before `index_with` is called. -/
def unindexedLoader : LoaderState Nat :=
  { indexedLoader with vocab := false }

/-- C8 witness: iterating `unindexedLoader` fails with the not-indexed
error; iterating `indexedLoader` does not. -/
theorem not_indexed_check_witness :
    loaderIterate none id id [] unindexedLoader = .error .notIndexed ∧
    loaderIterate none id id [] indexedLoader ≠ .error .notIndexed :=
  ⟨(not_indexed_check Nat none id id [] unindexedLoader).1 rfl,
   (not_indexed_check Nat none id id [] indexedLoader).2 rfl⟩

theorem iterInstances_idem (st : LoaderState α) :
    iterInstances (iterInstances st).2 = iterInstances st := by
  unfold iterInstances
  rcases st with ⟨cfg, source, instances, gen, vocab⟩
  rcases instances with - | is
  · rcases hm : cfg.max_instances_in_memory with - | m <;> simp [hm, List.isEmpty_iff]
  · rcases he : is.isEmpty with - | -
    · simp only [he, Bool.false_eq_true, if_false]
    · simp only [he, if_true]
      rcases hm : cfg.max_instances_in_memory with - | m <;>
        simp [hm, he, List.isEmpty_iff]

theorem iterInstances_fields (st : LoaderState α) :
    (iterInstances st).2.cfg = st.cfg ∧ (iterInstances st).2.vocab = st.vocab ∧
      (iterInstances st).2.gen = st.gen := by
  unfold iterInstances
  rcases hi : st.instances with - | is
  · rcases hm : st.cfg.max_instances_in_memory with - | m <;> simp [hm]
  · rcases he : is.isEmpty with - | -
    · simp [he]
    · rcases hm : st.cfg.max_instances_in_memory with - | m <;> simp [hm, he]

theorem instancesToBatches_shuffle_free (cfg : Config) (h : cfg.shuffle = false)
    (sampler : Option (List α → List (List Nat))) (oS oM oS' oM' : List α → List α)
    (xs : List α) :
    instancesToBatches cfg sampler oS oM xs = instancesToBatches cfg sampler oS' oM' xs := by
  unfold instancesToBatches
  rcases hm : cfg.max_instances_in_memory with - | m <;> simp [h]

/-- C9 (amended): for a loader with the indexing context attached,
`num_workers = 0`, `shuffle = false` and — as the counterexample forces —
`batches_per_epoch` unset, two successive complete iterations yield the
same batch sequence (same batches, same contents, same order), leave the
state fixed, and are moreover independent of the shuffling randomness
and of any worker interleaving. -/
theorem deterministic_two_iterations (α : Type)
    (sampler : Option (List α → List (List Nat))) (st : LoaderState α)
    (hv : st.vocab = true) (hnw : st.cfg.num_workers = 0)
    (hsh : st.cfg.shuffle = false) (hbpe : st.cfg.batches_per_epoch = none)
    (oS₁ oM₁ oS₂ oM₂ : List α → List α)
    (msgs₁ msgs₂ : List (QueueMsg (List α))) :
    ∃ ys st', loaderIterate sampler oS₁ oM₁ msgs₁ st = .ok (ys, st') ∧
      loaderIterate sampler oS₂ oM₂ msgs₂ st' = .ok (ys, st') := by
  obtain ⟨hcfg, hvoc, -⟩ := iterInstances_fields st
  refine ⟨instancesToBatches st.cfg sampler oS₁ oM₁ (iterInstances st).1,
    (iterInstances st).2, ?_, ?_⟩
  · unfold loaderIterate iterBatchesPass
    rw [hv, hbpe, hnw]
    simp
  · unfold loaderIterate iterBatchesPass
    rw [hvoc, hv, hcfg, hbpe, hnw, iterInstances_idem st]
    simp [instancesToBatches_shuffle_free st.cfg hsh sampler oS₂ oM₂ oS₁ oM₁]

/-- C9 witness: on `indexedLoader` two successive iterations agree. -/
theorem deterministic_two_iterations_witness :
    ∃ ys st', loaderIterate none id id [] indexedLoader = .ok (ys, st') ∧
      loaderIterate none id id [] st' = .ok (ys, st') :=
  deterministic_two_iterations Nat none indexedLoader rfl rfl rfl rfl id id id id [] []

/-- A deterministic, unshuffled, in-process loader with
`batches_per_epoch = 3` over a two-batch source. -/
def bpeLoader : LoaderState Nat :=
  ⟨⟨some 1, false, false, some 3, 0, none⟩, [0, 1], some [0, 1], none, true⟩

/-- State of `bpeLoader` after one iteration call: the persistent generator holds
the residual batch `[1]`. -/
def bpeLoaderAfterOne : LoaderState Nat :=
  { bpeLoader with gen := some [[1]] }

/-- State of `bpeLoader` after two iteration calls. -/
def bpeLoaderAfterTwo : LoaderState Nat :=
  { bpeLoader with gen := some [] }

/-- C9 counterexample: `bpeLoader` has `num_workers = 0`,
`shuffle = false`, a deterministic source and no sampler, yet its first
iteration call yields `[0], [1], [0]` and its second `[1], [0], [1]` —
`batches_per_epoch = 3` leaves the persistent generator mid-pass, so two
successive complete iterations are *not* identical. -/
theorem deterministic_iteration_counterexample :
    loaderIterate none id id [] bpeLoader = .ok ([[0], [1], [0]], bpeLoaderAfterOne) ∧
    loaderIterate none id id [] bpeLoaderAfterOne =
      .ok ([[1], [0], [1]], bpeLoaderAfterTwo) ∧
    ([[0], [1], [0]] : List (List Nat)) ≠ [[1], [0], [1]] := by
  refine ⟨rfl, rfl, ?_⟩
  decide

theorem protocol_shape (vs : List β) (err : Option (String × String)) :
    protocolOk (valuesOf vs ++ errPart err ++ [QueueMsg.done]) := by
  refine ⟨vs, errPart err, rfl, ?_⟩
  cases err with
  | none => exact Or.inl rfl
  | some p => exact Or.inr ⟨p.1, p.2, rfl⟩

/-- C6: every worker body — the raw-item role with its token-indexers
check and the batch role alike — emits, for every record source
(including one whose read raises after yielding `recs`, with `readErr`
the message and traceback text), a message sequence of the shape
`Value* Error? Done`: zero or more values, then at most one error
(carrying only text, by the type of `QueueMsg.error`), then exactly one
done sentinel with nothing after it — a done is emitted even on
failure. -/
theorem worker_message_protocol (α : Type) (bad : α → Bool) (recs : List α)
    (readErr : Option (String × String)) (cfg : Config)
    (sampler : Option (List α → List (List Nat))) (oS oM : List α → List α)
    (recsB : List α) (readErrB : Option (String × String)) :
    protocolOk (instanceWorkerMsgs bad recs readErr) ∧
    protocolOk (batchWorkerMsgs cfg sampler oS oM recsB readErrB) := by
  constructor
  · unfold instanceWorkerMsgs
    exact protocol_shape _ _
  · unfold batchWorkerMsgs
    exact protocol_shape _ _

theorem fanIn_stops_at_error (num_workers : Nat) (m t : String)
    (post : List (QueueMsg β)) :
    ∀ (pre : List (QueueMsg β)) (dc : Nat), errorCount pre = 0 →
      doneCount pre + dc < num_workers →
      fanIn num_workers dc (pre ++ QueueMsg.error m t :: post) =
        some (valuePayloads pre, some m) := by
  intro pre
  induction pre with
  | nil =>
    intro dc _ hdc
    unfold fanIn
    rw [if_neg (by simp [doneCount] at hdc; omega)]
    simp [valuePayloads]
  | cons msg rest ih =>
    intro dc hne hdc
    cases msg with
    | value b =>
      have hne' : errorCount rest = 0 := by
        simpa [errorCount] using hne
      have hdc' : doneCount rest + dc < num_workers := by
        simpa [doneCount] using hdc
      unfold fanIn
      rw [if_neg (by simp [doneCount] at hdc; omega)]
      simp only [List.cons_append]
      rw [ih dc hne' hdc']
      simp [valuePayloads]
    | done =>
      have hne' : errorCount rest = 0 := by
        simpa [errorCount] using hne
      have hdc' : doneCount rest + (dc + 1) < num_workers := by
        simp [doneCount] at hdc ⊢
        omega
      unfold fanIn
      rw [if_neg (by simp [doneCount] at hdc; omega)]
      simp only [List.cons_append]
      rw [ih (dc + 1) hne' hdc']
      simp [valuePayloads]
    | error m' t' =>
      exfalso
      simp [errorCount] at hne

theorem ackLoop_eq_min : ∀ iters unfinished : Nat,
    ackLoop iters unfinished = min iters unfinished := by
  intro iters
  induction iters with
  | zero => intro b; simp [ackLoop]
  | succ n ih =>
    intro b
    cases b with
    | zero => simp [ackLoop]
    | succ b' =>
      rw [ackLoop, ih b']
      omega

/-- C7 (amended): whenever the fan-in loop observes an error message —
one sitting after an error-free prefix containing fewer done sentinels
than there are workers — the call raises `WorkerError` with that
worker's message, yields exactly the values of the prefix (so nothing at
all, from any worker, after the error message), and the `finally`
teardown issues acknowledgments *up to* one per spawned worker — exactly
`min(num_workers, unfinished count)`, the loop breaking early on
`ValueError` when the queue's unfinished count is exhausted — and
force-terminates the stragglers, leaving no worker alive when the call
returns. -/
theorem worker_error_aborts (β : Type) (num_workers : Nat)
    (pre post : List (QueueMsg β)) (m t : String) (alive : List Bool)
    (unfinished : Nat)
    (hne : errorCount pre = 0) (hdc : doneCount pre < num_workers)
    (hlen : alive.length = num_workers) :
    ∃ res, iterBatchesMulti num_workers (pre ++ QueueMsg.error m t :: post)
        alive unfinished = some res ∧
      res.yielded = valuePayloads pre ∧ res.raisedWorkerError = some m ∧
      res.teardownAcks = min num_workers unfinished ∧
      ∀ a ∈ res.workersAliveAfter, a = false := by
  refine ⟨⟨valuePayloads pre, some m, ackLoop alive.length unfinished,
    alive.map (fun _ => false)⟩, ?_, rfl, rfl, ?_, ?_⟩
  · unfold iterBatchesMulti joinWorkers
    rw [fanIn_stops_at_error num_workers m t post pre 0 hne (by omega)]
    rfl
  · rw [hlen, ackLoop_eq_min]
  · intro a ha
    rw [List.mem_map] at ha
    obtain ⟨-, -, h⟩ := ha
    exact h.symm

/-- C7 witness: two workers; the first yields batch `7` and finishes,
then the second fails with three of its puts still unacknowledged — the
call raises `WorkerError "boom"`, yields only `7`, acknowledges twice
(`min 2 3`) and leaves both workers dead. -/
theorem worker_error_aborts_witness :
    ∃ res, iterBatchesMulti 2
        ([QueueMsg.value 7, QueueMsg.done] ++
          QueueMsg.error "boom" "tb" :: [QueueMsg.done]) [true, true] 3 = some res ∧
      res.yielded = valuePayloads [QueueMsg.value 7, QueueMsg.done] ∧
      res.raisedWorkerError = some "boom" ∧ res.teardownAcks = min 2 3 ∧
      ∀ a ∈ res.workersAliveAfter, a = false :=
  worker_error_aborts Nat 2 [QueueMsg.value 7, QueueMsg.done] [QueueMsg.done]
    "boom" "tb" [true, true] 3 (by decide) (by decide) (by decide)

/-- C7 counterexample: two workers; the first fails immediately, its
error message is the only unacknowledged put (the second worker has not
enqueued anything yet when the consumer raises).  The teardown's first
`task_done()` succeeds, the second raises `ValueError` and the loop
breaks: one acknowledgment is issued, not the "one acknowledgment per
spawned worker" (two) the claim asserts. -/
theorem worker_error_full_ack_counterexample :
    (∃ res : MultiIterResult Nat, iterBatchesMulti 2 [QueueMsg.error "boom" "tb"]
        ([true, true] : List Bool) 1 = some res ∧ res.raisedWorkerError = some "boom" ∧
        res.teardownAcks = 1) ∧
    ¬∃ res : MultiIterResult Nat, iterBatchesMulti 2 [QueueMsg.error "boom" "tb"]
        ([true, true] : List Bool) 1 = some res ∧ res.teardownAcks = 2 := by
  have h : iterBatchesMulti 2 [QueueMsg.error "boom" "tb"]
      ([true, true] : List Bool) 1 =
      some (⟨[], some "boom", 1, [false, false]⟩ : MultiIterResult Nat) := by
    decide
  constructor
  · exact ⟨_, h, rfl, rfl⟩
  · rintro ⟨res, hres, hacks⟩
    rw [h] at hres
    injection hres with he
    rw [← he] at hacks
    exact absurd hacks (by decide)

theorem groupsFuel_length_le (n : Nat) (hn : 1 ≤ n) :
    ∀ (fuel : Nat) (xs : List α) (g : List α), g ∈ groupsFuel n fuel xs →
      g.length ≤ n := by
  intro fuel
  induction fuel with
  | zero =>
    intro xs g hg
    cases xs <;> simp [groupsFuel] at hg
  | succ f ih =>
    intro xs g hg
    cases xs with
    | nil => simp [groupsFuel] at hg
    | cons x xs =>
      rw [groupsFuel, List.mem_cons] at hg
      rcases hg with hg | hg
      · subst hg
        simp only [List.length_cons, List.length_take]
        omega
      · exact ih _ _ hg

theorem mem_lazyGroupsOf_length_le (n : Nat) (hn : 1 ≤ n) (xs : List α)
    (g : List α) (hg : g ∈ lazyGroupsOf n xs) : g.length ≤ n :=
  groupsFuel_length_le n hn xs.length xs g hg

theorem mem_windowToBatches_no_sampler (cfg : Config) (bs : Nat)
    (hbs : cfg.batch_size = some bs) (hpos : 1 ≤ bs) (w : List α) (b : List α)
    (hb : b ∈ windowToBatches cfg none w) :
    b.length ≤ bs ∧ (cfg.drop_last = true → b.length = bs) := by
  unfold windowToBatches at hb
  simp only [hbs, Option.getD_some, Option.isNone_none, Bool.true_and] at hb
  have hmem : b ∈ lazyGroupsOf bs w := (List.takeWhile_sublist _).mem hb
  have hle := mem_lazyGroupsOf_length_le bs hpos w b hmem
  refine ⟨hle, ?_⟩
  intro hdl
  have hp := List.mem_takeWhile_imp hb
  rw [hdl] at hp
  simp only [Bool.true_and, Bool.not_eq_eq_eq_not, Bool.not_true,
    decide_eq_false_iff_not, Nat.not_lt] at hp
  omega

/-- C10: in batch-size mode (no sampler), for every record stream,
configuration and shuffling, every batch the builder yields has at most
`batch_size` records; and with `drop_last` set every yielded batch has
*exactly* `batch_size` records — the per-window yielding loop breaks at
the first under-sized group, so an under-sized batch is never yielded. -/
theorem builder_batch_size_invariant (α : Type) (cfg : Config)
    (oS oM : List α → List α) (bs : Nat) (instances : List α)
    (hbs : cfg.batch_size = some bs) (hpos : 1 ≤ bs) :
    (∀ b ∈ instancesToBatches cfg none oS oM instances, b.length ≤ bs) ∧
    (cfg.drop_last = true →
      ∀ b ∈ instancesToBatches cfg none oS oM instances, b.length = bs) := by
  have key : ∀ b ∈ instancesToBatches cfg none oS oM instances,
      b.length ≤ bs ∧ (cfg.drop_last = true → b.length = bs) := by
    intro b hb
    unfold instancesToBatches at hb
    rcases hm : cfg.max_instances_in_memory with - | mii
    · rw [hm] at hb
      exact mem_windowToBatches_no_sampler cfg bs hbs hpos _ b hb
    · rw [hm] at hb
      simp only [List.mem_flatten, List.mem_map] at hb
      obtain ⟨l, ⟨win, -, hwin⟩, hbl⟩ := hb
      subst hwin
      exact mem_windowToBatches_no_sampler cfg bs hbs hpos win b hbl
  exact ⟨fun b hb => (key b hb).1, fun hdl b hb => (key b hb).2 hdl⟩

/-- C10 witness: `batch_size = 2`, `drop_last = true` on the 3-record
stream `[0,1,2]` — every yielded batch has length at most 2, and being
in drop-last mode, exactly 2. -/
theorem builder_batch_size_invariant_witness :
    (∀ b ∈ instancesToBatches ⟨some 2, true, false, none, 0, none⟩ none id id
        [0, 1, 2], b.length ≤ 2) ∧
    (∀ b ∈ instancesToBatches ⟨some 2, true, false, none, 0, none⟩ none id id
        [0, 1, 2], b.length = 2) := by
  have h := builder_batch_size_invariant Nat ⟨some 2, true, false, none, 0, none⟩
    id id 2 [0, 1, 2] rfl (by decide)
  exact ⟨h.1, h.2 rfl⟩

end MPDL
